import Mathlib

/-!
Shallow embedding of the Bolide GUI library (src/std/gui/gui.c) for
verification of its specification.  Handles (HWND, pointers) are modelled
as Nat with 0 standing for NULL; C `int` values are modelled as Int with
`Int.tdiv` / `Int.tmod` for C's truncating `/` and `%`; external Win32
calls (window creation, SetTimer, SetWindowPos, ...) are side effects
outside the registries and are represented by parameters for the values
they produce.
-/

/-! ### Callback registry (gui.c lines 35-58, 146-162) -/

inductive CallbackType where
  | click
  | change
  | select
  | paint
  | mouseMove
  | mouseDown
  | mouseUp
  | keyDown
  | keyUp
  | close
  | resize
  deriving DecidableEq, Repr

structure CallbackEntry where
  hwnd : Nat
  type : CallbackType
  callback : Nat
  deriving DecidableEq, Repr

/-- gui.c line 35: `#define MAX_CALLBACKS 256`. -/
def MAX_CALLBACKS : Nat := 256

/-- gui.c lines 146-153: append the entry if the registry is below
capacity, otherwise do nothing.  The registry `g_callbacks` with its
count is modelled as a list in registration order. -/
def register_callback (cbs : List CallbackEntry) (hwnd : Nat)
    (ty : CallbackType) (cb : Nat) : List CallbackEntry :=
  if cbs.length < MAX_CALLBACKS then cbs ++ [⟨hwnd, ty, cb⟩] else cbs

/-- gui.c lines 155-162: linear scan from index 0, returning the first
entry whose hwnd and type both match, or NULL (here `none`). -/
def find_callback : List CallbackEntry → Nat → CallbackType → Option Nat
  | [], _, _ => none
  | e :: rest, hwnd, ty =>
    if e.hwnd = hwnd ∧ e.type = ty then some e.callback
    else find_callback rest hwnd ty

/-! ### Timer registry and main-window state
(gui.c lines 24-27, 61-69, 484-486, 1178-1202) -/

structure TimerEntry where
  id : Nat
  callback : Nat
  deriving DecidableEq, Repr

/-- gui.c line 61: `#define MAX_TIMERS 32`. -/
def MAX_TIMERS : Nat := 32

/-- The global state relevant to timers: `g_main_window` (0 = NULL),
the `g_timers` array with `g_timer_count` (a list), and
`g_timer_id_counter`. -/
structure GuiState where
  mainWindow : Nat
  timers : List TimerEntry
  timerIdCounter : Nat
  deriving DecidableEq, Repr

/-- Initial values of the globals: `g_main_window = NULL`,
`g_timer_count = 0`, `g_timer_id_counter = 1`. -/
def initState : GuiState :=
  { mainWindow := 0, timers := [], timerIdCounter := 1 }

/-- gui.c lines 484-486 inside gui_window: the first created window
becomes the main window (`hwnd` is the handle returned by the external
CreateWindowExW call, possibly NULL). -/
def gui_window (st : GuiState) (hwnd : Nat) : GuiState :=
  if st.mainWindow = 0 then { st with mainWindow := hwnd } else st

/-- gui.c lines 1178-1188: return 0 when there is no main window or the
registry is full; otherwise take a fresh id from the counter, append the
entry and return the id.  The external SetTimer call and the interval
only affect the host, not the registry; the interval is kept as an
unused parameter to mirror the C signature. -/
def gui_set_timer (st : GuiState) (interval_ms : Int) (cb : Nat) :
    Nat × GuiState :=
  if st.mainWindow = 0 ∨ MAX_TIMERS ≤ st.timers.length then (0, st)
  else
    let id := st.timerIdCounter
    (id, { st with
            timerIdCounter := id + 1,
            timers := st.timers ++ [⟨id, cb⟩] })

/-- gui.c lines 1193-1201: the scan finds the first entry with the given
id, shifts every later entry one slot left and decrements the count;
functionally this removes the first occurrence. -/
def removeFirstTimer : List TimerEntry → Nat → List TimerEntry
  | [], _ => []
  | e :: rest, tid =>
    if e.id = tid then rest else e :: removeFirstTimer rest tid

/-- gui.c lines 1190-1202: no-op when there is no main window (the
external KillTimer call is a host side effect); otherwise remove the
first entry carrying the id. -/
def gui_kill_timer (st : GuiState) (tid : Nat) : GuiState :=
  if st.mainWindow = 0 then st
  else { st with timers := removeFirstTimer st.timers tid }

/-- The states reachable through the API calls that touch the timer
registry or the main window.  `g_main_window` is only ever written at
gui.c lines 484-486; the timer registry only at lines 1178-1202. -/
inductive Reachable : GuiState → Prop where
  | init : Reachable initState
  | window (st : GuiState) (hwnd : Nat) :
      Reachable st → Reachable (gui_window st hwnd)
  | timer (st : GuiState) (iv : Int) (cb : Nat) :
      Reachable st → Reachable (gui_set_timer st iv cb).2
  | kill (st : GuiState) (tid : Nat) :
      Reachable st → Reachable (gui_kill_timer st tid)

/-- Invariant of the timer registry maintained by the API. -/
def TimerInv (st : GuiState) : Prop :=
  1 ≤ st.timerIdCounter ∧
  (∀ e ∈ st.timers, 1 ≤ e.id ∧ e.id < st.timerIdCounter) ∧
  (st.timers.map TimerEntry.id).Nodup ∧
  (st.timers = [] ∨ st.mainWindow ≠ 0)

/-! ### Canvas registry (gui.c lines 76-87, 846-888) -/

structure CanvasData where
  hwnd : Nat
  width : Int
  height : Int
  deriving DecidableEq, Repr

/-- gui.c line 76: `#define MAX_CANVAS 32`. -/
def MAX_CANVAS : Nat := 32

/-- gui.c lines 846-888 (registry part of gui_canvas): NULL at capacity,
NULL when the external CreateWindowExW fails (hwnd = 0), otherwise
append the canvas data and return the handle.  The memory DC and bitmap
are host resources and are not part of the registry model. -/
def gui_canvas (cvs : List CanvasData) (hwnd : Nat) (sw sh : Int) :
    Option Nat × List CanvasData :=
  if MAX_CANVAS ≤ cvs.length then (none, cvs)
  else if hwnd = 0 then (none, cvs)
  else (some hwnd, cvs ++ [⟨hwnd, sw, sh⟩])

/-! ### Layout registry and layout engine
(gui.c lines 100-120, 1256-1389) -/

inductive LayoutType where
  | vbox
  | hbox
  | grid
  deriving DecidableEq, Repr

structure Layout where
  parent : Nat
  type : LayoutType
  margin : Int
  spacing : Int
  grid_cols : Int
  children : List Nat
  deriving DecidableEq, Repr

/-- gui.c line 118: `#define MAX_LAYOUTS 32`. -/
def MAX_LAYOUTS : Nat := 32

/-- gui.c lines 1333-1345 (gui_vbox): NULL at capacity, otherwise append
a fresh vertical layout and return a reference to it (modelled as its
index). -/
def gui_vbox (lays : List Layout) (parent : Nat) (margin spacing : Int) :
    Option Nat × List Layout :=
  if MAX_LAYOUTS ≤ lays.length then (none, lays)
  else (some lays.length,
        lays ++ [⟨parent, LayoutType.vbox, margin, spacing, 0, []⟩])

/-- gui.c lines 1348-1360 (gui_hbox). -/
def gui_hbox (lays : List Layout) (parent : Nat) (margin spacing : Int) :
    Option Nat × List Layout :=
  if MAX_LAYOUTS ≤ lays.length then (none, lays)
  else (some lays.length,
        lays ++ [⟨parent, LayoutType.hbox, margin, spacing, 0, []⟩])

/-- gui.c lines 1363-1375 (gui_grid). -/
def gui_grid (lays : List Layout) (parent : Nat)
    (cols margin spacing : Int) : Option Nat × List Layout :=
  if MAX_LAYOUTS ≤ lays.length then (none, lays)
  else (some lays.length,
        lays ++ [⟨parent, LayoutType.grid, margin, spacing, cols, []⟩])

/-- A rectangle as passed to SetWindowPos: position and size. -/
structure Rect where
  x : Int
  y : Int
  w : Int
  h : Int
  deriving DecidableEq, Repr

/-- gui.c lines 1278-1279: the per-child extent of a vertical stack. -/
def vbox_child_h (l : Layout) (height : Int) : Int :=
  Int.tdiv ((height - 2 * l.margin) -
            ((l.children.length : Int) - 1) * l.spacing)
    (l.children.length : Int)

/-- gui.c lines 1292-1293: the per-child extent of a horizontal stack. -/
def hbox_child_w (l : Layout) (width : Int) : Int :=
  Int.tdiv ((width - 2 * l.margin) -
            ((l.children.length : Int) - 1) * l.spacing)
    (l.children.length : Int)

/-- gui.c lines 1306-1307: `if (cols <= 0) cols = 1;`. -/
def effective_cols (l : Layout) : Int :=
  if l.grid_cols ≤ 0 then 1 else l.grid_cols

/-- gui.c line 1308: `rows = (child_count + cols - 1) / cols`. -/
def grid_rows (l : Layout) : Int :=
  Int.tdiv ((l.children.length : Int) + effective_cols l - 1)
    (effective_cols l)

/-- gui.c line 1312: grid cell width. -/
def grid_cell_w (l : Layout) (width : Int) : Int :=
  Int.tdiv ((width - 2 * l.margin) -
            (effective_cols l - 1) * l.spacing)
    (effective_cols l)

/-- gui.c line 1313: grid cell height. -/
def grid_cell_h (l : Layout) (height : Int) : Int :=
  Int.tdiv ((height - 2 * l.margin) -
            (grid_rows l - 1) * l.spacing)
    (grid_rows l)

/-- gui.c lines 1282-1288: the vbox loop; `y` starts at the margin and
advances by `child_height + spacing` per child. -/
def vbox_rects (margin y content_width child_height spacing : Int) :
    Nat → List Rect
  | 0 => []
  | n + 1 =>
    ⟨margin, y, content_width, child_height⟩ ::
      vbox_rects margin (y + child_height + spacing)
        content_width child_height spacing n

/-- gui.c lines 1296-1302: the hbox loop; `x` starts at the margin and
advances by `child_width + spacing` per child. -/
def hbox_rects (margin x content_height child_width spacing : Int) :
    Nat → List Rect
  | 0 => []
  | n + 1 =>
    ⟨x, margin, child_width, content_height⟩ ::
      hbox_rects margin (x + child_width + spacing)
        content_height child_width spacing n

/-- gui.c lines 1265-1326 (apply_layout): early return on zero children,
then one rectangle per child, handed to the external SetWindowPos.  The
parent client rectangle (GetClientRect) is passed in as width/height. -/
def apply_layout (l : Layout) (width height : Int) : List Rect :=
  if l.children.length = 0 then []
  else
    match l.type with
    | LayoutType.vbox =>
      vbox_rects l.margin l.margin (width - 2 * l.margin)
        (vbox_child_h l height) l.spacing l.children.length
    | LayoutType.hbox =>
      hbox_rects l.margin l.margin (height - 2 * l.margin)
        (hbox_child_w l width) l.spacing l.children.length
    | LayoutType.grid =>
      (List.range l.children.length).map fun (i : Nat) =>
        let row := Int.tdiv (Int.ofNat i) (effective_cols l)
        let col := Int.tmod (Int.ofNat i) (effective_cols l)
        ⟨l.margin + col * (grid_cell_w l width + l.spacing),
         l.margin + row * (grid_cell_h l height + l.spacing),
         grid_cell_w l width, grid_cell_h l height⟩

/-! ### DPI scaling (gui.c lines 436-439) -/

/-- Model of the Win32 `MulDiv` API (an external platform call):
multiply, then divide rounding to the nearest integer with ties away
from zero, following the documented behaviour (a zero divisor yields
-1; the 32-bit overflow clamp of the host is outside this model). -/
def MulDiv (a b c : Int) : Int :=
  if c = 0 then -1
  else
    let d := if c < 0 then -c else c
    let a1 := if c < 0 then -a else a
    if (0 ≤ a1 ∧ 0 ≤ b) ∨ (a1 < 0 ∧ b < 0)
    then Int.tdiv (a1 * b + d / 2) d
    else Int.tdiv (a1 * b - d / 2) d

/-- gui.c lines 436-439: `gui_scale` forwards to
`MulDiv(value, dpi, 96)`, the dpi coming from `gui_get_dpi` (an
external query, passed in as a parameter here). -/
def gui_scale (value dpi : Int) : Int :=
  MulDiv value dpi 96

/-- The spec's description of the rounding: value * dpi / 96 rounded to
nearest, half up, i.e. the floor of (value * dpi + 48) / 96. -/
def scale_half_up (value dpi : Int) : Int :=
  (value * dpi + 48) / 96

/-! ### Packed-RGB color conversion (gui.c lines 890-896, 1101-1107) -/

/-- The Win32 RGB macro (external header):
`r | (g << 8) | (b << 16)`, producing a COLORREF 0x00BBGGRR. -/
def RGB (r g b : Nat) : Nat :=
  r ||| (g <<< 8) ||| (b <<< 16)

/-- gui.c lines 890-896: split a 0xRRGGBB int into bytes and pack them
as a COLORREF.  The claims restrict the color to [0, 0xFFFFFF], so the
C int is modelled as Nat. -/
def rgb_from_int (color : Nat) : Nat :=
  let r := (color >>> 16) &&& 0xFF
  let g := (color >>> 8) &&& 0xFF
  let b := color &&& 0xFF
  RGB r g b

/-- The Win32 GetRValue/GetGValue/GetBValue macros (external header)
followed by the recombination at gui.c lines 1103-1106:
`(r << 16) | (g << 8) | b`. -/
def colorref_to_int (cr : Nat) : Nat :=
  let r := cr &&& 0xFF
  let g := (cr >>> 8) &&& 0xFF
  let b := (cr >>> 16) &&& 0xFF
  (r <<< 16) ||| (g <<< 8) ||| b

/-! ### Theorems: callback registry (C1) -/

theorem find_callback_eq_find (cbs : List CallbackEntry) (hwnd : Nat)
    (ty : CallbackType) :
    find_callback cbs hwnd ty =
      (cbs.find? fun e => decide (e.hwnd = hwnd ∧ e.type = ty)).map
        CallbackEntry.callback := by
  induction cbs with
  | nil => rfl
  | cons e rest ih =>
    by_cases h : e.hwnd = hwnd ∧ e.type = ty
    · simp [find_callback, List.find?_cons, h]
    · simp [find_callback, List.find?_cons, h, ih]

theorem find_callback_append_left (l₁ l₂ : List CallbackEntry)
    (hwnd : Nat) (ty : CallbackType)
    (h : (find_callback l₁ hwnd ty).isSome) :
    find_callback (l₁ ++ l₂) hwnd ty = find_callback l₁ hwnd ty := by
  induction l₁ with
  | nil => exact Bool.noConfusion h
  | cons e rest ih =>
    by_cases he : e.hwnd = hwnd ∧ e.type = ty
    · simp [find_callback, he]
    · rw [show find_callback (e :: rest) hwnd ty
            = find_callback rest hwnd ty from by
          simp [find_callback, he]] at h
      rw [List.cons_append]
      simp only [find_callback, if_neg he]
      exact ih h

/-- C1 (amended): `find(h, k)` returns the callback of the EARLIEST
registered entry matching (h, k) — the linear scan starts at index 0 —
or none if no entry matches; since registration always appends,
re-registering a (handle, kind) pair that already has a match never
changes what find returns. -/
theorem C1_find_callback_first_match (cbs : List CallbackEntry)
    (hwnd : Nat) (ty : CallbackType) (cb : Nat) :
    (find_callback cbs hwnd ty =
      (cbs.find? fun e => decide (e.hwnd = hwnd ∧ e.type = ty)).map
        CallbackEntry.callback) ∧
    (find_callback cbs hwnd ty = none ↔
      ∀ e ∈ cbs, ¬(e.hwnd = hwnd ∧ e.type = ty)) ∧
    ((find_callback cbs hwnd ty).isSome →
      find_callback (register_callback cbs hwnd ty cb) hwnd ty =
        find_callback cbs hwnd ty) := by
  refine ⟨find_callback_eq_find cbs hwnd ty, ?_, ?_⟩
  · rw [find_callback_eq_find]
    simp [List.find?_eq_none]
  · intro h
    unfold register_callback
    split
    · exact find_callback_append_left cbs _ hwnd ty h
    · rfl

/-- C1 witness: with one matching entry registered, find returns it, and
a second registration for the same (handle, kind) does not change the
result of find. -/
theorem C1_witness :
    find_callback
        (register_callback [⟨1, CallbackType.click, 10⟩] 1
          CallbackType.click 20) 1 CallbackType.click =
      find_callback [⟨1, CallbackType.click, 10⟩] 1 CallbackType.click :=
  (C1_find_callback_first_match [⟨1, CallbackType.click, 10⟩] 1
    CallbackType.click 20).2.2 (by decide)

/-- C1 counterexample: registering callback 10 and then callback 20 for
the same (handle, kind) leaves both entries in the registry; the most
recently registered matching entry carries callback 20, yet
find_callback returns callback 10. -/
theorem C1_counterexample :
    register_callback (register_callback [] 1 CallbackType.click 10) 1
        CallbackType.click 20 =
      [⟨1, CallbackType.click, 10⟩, ⟨1, CallbackType.click, 20⟩] ∧
    find_callback
        (register_callback (register_callback [] 1 CallbackType.click 10)
          1 CallbackType.click 20) 1 CallbackType.click = some 10 ∧
    (10 : Nat) ≠ 20 := by
  decide

/-! ### Theorems: packed-RGB color conversion (C10) -/

theorem land_255 (x : Nat) : x &&& 255 = x % 256 := by
  have h := Nat.and_pow_two_sub_one_eq_mod x 8
  norm_num at h
  exact h

theorem or256 (a b : Nat) (h : b < 256) : (256 * a) ||| b = 256 * a + b := by
  have h2 : b < 2 ^ 8 := by omega
  have h3 := (Nat.mul_add_lt_is_or h2 a).symm
  norm_num at h3
  exact h3

theorem or65536 (a b : Nat) (h : b < 65536) :
    (65536 * a) ||| b = 65536 * a + b := by
  have h2 : b < 2 ^ 16 := by omega
  have h3 := (Nat.mul_add_lt_is_or h2 a).symm
  norm_num at h3
  exact h3

theorem RGB_eq (r g b : Nat) (hr : r < 256) (hg : g < 256) :
    RGB r g b = 65536 * b + 256 * g + r := by
  unfold RGB
  rw [Nat.shiftLeft_eq, Nat.shiftLeft_eq]
  norm_num
  rw [Nat.lor_comm r (g * 256), show g * 256 = 256 * g by ring,
    or256 g r hr, Nat.lor_comm _ (b * 65536),
    show b * 65536 = 65536 * b by ring,
    or65536 b (256 * g + r) (by omega)]
  omega

theorem pack_bytes (hi mid lo : Nat) (hmid : mid < 256) (hlo : lo < 256) :
    (hi <<< 16) ||| (mid <<< 8) ||| lo = 65536 * hi + 256 * mid + lo := by
  rw [Nat.shiftLeft_eq, Nat.shiftLeft_eq]
  norm_num
  rw [show hi * 65536 = 65536 * hi by ring,
    show mid * 256 = 256 * mid by ring,
    or65536 hi (256 * mid) (by omega),
    show 65536 * hi + 256 * mid = 256 * (256 * hi + mid) by ring,
    or256 (256 * hi + mid) lo hlo]

theorem roundtrip_bytes (hi mid lo : Nat) (hhi : hi < 256)
    (hmid : mid < 256) (hlo : lo < 256) :
    colorref_to_int (rgb_from_int (65536 * hi + 256 * mid + lo)) =
      65536 * hi + 256 * mid + lo := by
  unfold rgb_from_int colorref_to_int
  simp only [Nat.shiftRight_eq_div_pow, land_255]
  norm_num
  rw [show (65536 * hi + 256 * mid + lo) / 65536 % 256 = hi by omega,
    show (65536 * hi + 256 * mid + lo) / 256 % 256 = mid by omega,
    show (65536 * hi + 256 * mid + lo) % 256 = lo by omega,
    RGB_eq hi mid lo hhi hmid,
    show (65536 * lo + 256 * mid + hi) % 256 = hi by omega,
    show (65536 * lo + 256 * mid + hi) / 256 % 256 = mid by omega,
    show (65536 * lo + 256 * mid + hi) / 65536 % 256 = lo by omega]
  exact pack_bytes hi mid lo hmid hlo

/-- C10: converting a 0xRRGGBB value in [0, 0xFFFFFF] to a COLORREF as
rgb_from_int does, then recombining the extracted components as
(r << 16) | (g << 8) | b as gui_color_picker does, yields the original
value. -/
theorem C10_color_roundtrip (c : Nat) (hc : c ≤ 0xFFFFFF) :
    colorref_to_int (rgb_from_int c) = c := by
  have h := roundtrip_bytes (c / 65536) (c / 256 % 256) (c % 256)
    (by omega) (by omega) (by omega)
  have hc2 : 65536 * (c / 65536) + 256 * (c / 256 % 256) + c % 256 = c := by
    have hdd : c / 65536 = c / 256 / 256 := by rw [Nat.div_div_eq_div_mul]
    omega
  rw [hc2] at h
  exact h

/-- C10 witness: the round trip is the identity on 0x123456. -/
theorem C10_witness :
    colorref_to_int (rgb_from_int 1193046) = 1193046 :=
  C10_color_roundtrip 1193046 (by decide)

/-! ### Theorems: timer registry (C4, C5, C9) -/

theorem removeFirstTimer_sublist (l : List TimerEntry) (tid : Nat) :
    (removeFirstTimer l tid).Sublist l := by
  induction l with
  | nil => exact List.Sublist.refl _
  | cons e rest ih =>
    unfold removeFirstTimer
    split
    · exact List.Sublist.cons e (List.Sublist.refl rest)
    · exact List.Sublist.cons₂ e ih

theorem removeFirstTimer_of_not_mem (l : List TimerEntry) (tid : Nat)
    (h : ∀ e ∈ l, e.id ≠ tid) : removeFirstTimer l tid = l := by
  induction l with
  | nil => rfl
  | cons e rest ih =>
    unfold removeFirstTimer
    rw [if_neg (h e (List.mem_cons_self e rest))]
    rw [ih fun x hx => h x (List.mem_cons_of_mem e hx)]

theorem removeFirstTimer_split (l : List TimerEntry) (tid : Nat)
    (h : tid ∈ l.map TimerEntry.id) :
    ∃ l₁ e l₂, l = l₁ ++ e :: l₂ ∧ e.id = tid ∧
      (∀ x ∈ l₁, x.id ≠ tid) ∧
      removeFirstTimer l tid = l₁ ++ l₂ := by
  induction l with
  | nil => simp at h
  | cons e rest ih =>
    by_cases he : e.id = tid
    · exact ⟨[], e, rest, by simp, he, by simp,
        by simp [removeFirstTimer, he]⟩
    · have h2 : tid ∈ rest.map TimerEntry.id := by
        rcases List.mem_map.mp h with ⟨x, hx, hxid⟩
        rcases List.mem_cons.mp hx with rfl | hx2
        · exact absurd hxid he
        · exact List.mem_map.mpr ⟨x, hx2, hxid⟩
      obtain ⟨l₁, e2, l₂, h1, hid, hl1, hrem⟩ := ih h2
      refine ⟨e :: l₁, e2, l₂, by simp [h1], hid, ?_, ?_⟩
      · intro x hx
        rcases List.mem_cons.mp hx with rfl | hx2
        · exact he
        · exact hl1 x hx2
      · simp [removeFirstTimer, he, hrem]

theorem reachable_timerInv (st : GuiState) (h : Reachable st) :
    TimerInv st := by
  induction h with
  | init =>
    refine ⟨le_refl 1, ?_, ?_, Or.inl rfl⟩
    · intro e he; simp [initState] at he
    · simp [initState]
  | window st hwnd _ ih =>
    unfold gui_window
    split
    · rename_i hmw
      obtain ⟨h1, h2, h3, h4⟩ := ih
      refine ⟨h1, h2, h3, ?_⟩
      rcases h4 with h4 | h4
      · exact Or.inl h4
      · exact absurd hmw h4
    · exact ih
  | timer st iv cb _ ih =>
    unfold gui_set_timer
    split
    · exact ih
    · rename_i hg
      push_neg at hg
      obtain ⟨h1, h2, h3, _⟩ := ih
      show TimerInv { st with
        timerIdCounter := st.timerIdCounter + 1,
        timers := st.timers ++ [⟨st.timerIdCounter, cb⟩] }
      unfold TimerInv
      dsimp only
      refine ⟨by omega, ?_, ?_, Or.inr hg.1⟩
      · intro e he
        rcases List.mem_append.mp he with he2 | he2
        · have := h2 e he2
          constructor
          · omega
          · omega
        · rcases List.mem_singleton.mp he2 with rfl
          exact And.intro h1 (Nat.lt_succ_self st.timerIdCounter)
      · show ((st.timers ++ [(⟨st.timerIdCounter, cb⟩ : TimerEntry)]).map
          TimerEntry.id).Nodup
        rw [List.map_append, List.nodup_append]
        refine ⟨h3, List.nodup_singleton _, ?_⟩
        intro a ha hb
        rcases List.mem_map.mp ha with ⟨e, he, rfl⟩
        have := (h2 e he).2
        simp at hb
        omega
  | kill st tid _ ih =>
    unfold gui_kill_timer
    split
    · exact ih
    · rename_i hmw
      obtain ⟨h1, h2, h3, _⟩ := ih
      have hsub := removeFirstTimer_sublist st.timers tid
      refine ⟨h1, ?_, ?_, Or.inr hmw⟩
      · intro e he
        exact h2 e (hsub.mem he)
      · exact List.Nodup.sublist (hsub.map TimerEntry.id) h3

theorem reachable_iterate_set_timer (n : Nat) (s : GuiState)
    (h : Reachable s) :
    Reachable ((fun s2 => (gui_set_timer s2 0 0).2)^[n] s) := by
  induction n with
  | zero => simpa using h
  | succ n ih =>
    rw [Function.iterate_succ_apply']
    exact Reachable.timer _ 0 0 ih

/-- C4 (amended): a gui_set_timer call made while a main window exists
and the timer registry is below capacity returns a positive id distinct
from the id of every live timer, and a subsequent such call (still below
capacity) returns a strictly greater id.  At capacity, or with no main
window, the call instead returns 0. -/
theorem gui_set_timer_ok_fst (st : GuiState) (iv : Int) (cb : Nat)
    (hw : st.mainWindow ≠ 0) (hl : st.timers.length < MAX_TIMERS) :
    (gui_set_timer st iv cb).1 = st.timerIdCounter := by
  unfold gui_set_timer
  rw [if_neg (by push_neg; exact ⟨hw, by omega⟩)]

theorem gui_set_timer_ok_timers (st : GuiState) (iv : Int) (cb : Nat)
    (hw : st.mainWindow ≠ 0) (hl : st.timers.length < MAX_TIMERS) :
    (gui_set_timer st iv cb).2.timers =
      st.timers ++ [⟨st.timerIdCounter, cb⟩] := by
  unfold gui_set_timer
  rw [if_neg (by push_neg; exact ⟨hw, by omega⟩)]

theorem gui_set_timer_ok_mainWindow (st : GuiState) (iv : Int) (cb : Nat)
    (hw : st.mainWindow ≠ 0) (hl : st.timers.length < MAX_TIMERS) :
    (gui_set_timer st iv cb).2.mainWindow = st.mainWindow := by
  unfold gui_set_timer
  rw [if_neg (by push_neg; exact ⟨hw, by omega⟩)]

theorem gui_set_timer_ok_counter (st : GuiState) (iv : Int) (cb : Nat)
    (hw : st.mainWindow ≠ 0) (hl : st.timers.length < MAX_TIMERS) :
    (gui_set_timer st iv cb).2.timerIdCounter =
      st.timerIdCounter + 1 := by
  unfold gui_set_timer
  rw [if_neg (by push_neg; exact ⟨hw, by omega⟩)]

theorem C4_set_timer_ids (st : GuiState) (iv iv2 : Int) (cb cb2 : Nat)
    (hr : Reachable st) (hw : st.mainWindow ≠ 0)
    (hl : st.timers.length < MAX_TIMERS) :
    0 < (gui_set_timer st iv cb).1 ∧
    (∀ e ∈ st.timers, e.id ≠ (gui_set_timer st iv cb).1) ∧
    (st.timers.length + 1 < MAX_TIMERS →
      (gui_set_timer st iv cb).1 <
        (gui_set_timer (gui_set_timer st iv cb).2 iv2 cb2).1) := by
  obtain ⟨h1, h2, _, _⟩ := reachable_timerInv st hr
  rw [gui_set_timer_ok_fst st iv cb hw hl]
  refine ⟨by omega, ?_, ?_⟩
  · intro e he
    have := h2 e he
    omega
  · intro hl2
    have hw2 : (gui_set_timer st iv cb).2.mainWindow ≠ 0 := by
      rw [gui_set_timer_ok_mainWindow st iv cb hw hl]
      exact hw
    have hl2b : (gui_set_timer st iv cb).2.timers.length < MAX_TIMERS := by
      rw [gui_set_timer_ok_timers st iv cb hw hl]
      rw [List.length_append]
      simpa using hl2
    rw [gui_set_timer_ok_fst _ iv2 cb2 hw2 hl2b]
    rw [gui_set_timer_ok_counter st iv cb hw hl]
    omega

/-- C4 witness: starting from the initial state, after creating a
window, the first timer call returns a positive id and a second call
returns a strictly greater id. -/
theorem C4_witness :
    0 < (gui_set_timer (gui_window initState 5) 1000 7).1 ∧
    (gui_set_timer (gui_window initState 5) 1000 7).1 <
      (gui_set_timer (gui_set_timer (gui_window initState 5) 1000 7).2
        500 8).1 := by
  have h := C4_set_timer_ids (gui_window initState 5) 1000 500 7 8
    (Reachable.window initState 5 Reachable.init) (by decide) (by decide)
  exact ⟨h.1, h.2.2 (by decide)⟩

set_option maxRecDepth 8000 in
/-- C4 counterexample: after a window and 32 timer registrations the
registry is full (a reachable state), and the 33rd gui_set_timer call
returns 0, which is not a positive id. -/
theorem C4_counterexample :
    Reachable ((fun s2 => (gui_set_timer s2 0 0).2)^[32]
      (gui_window initState 5)) ∧
    (gui_set_timer ((fun s2 => (gui_set_timer s2 0 0).2)^[32]
      (gui_window initState 5)) 1000 7).1 = 0 ∧
    ¬ 0 < (gui_set_timer ((fun s2 => (gui_set_timer s2 0 0).2)^[32]
      (gui_window initState 5)) 1000 7).1 := by
  refine ⟨reachable_iterate_set_timer 32 (gui_window initState 5)
    (Reachable.window initState 5 Reachable.init), ?_, ?_⟩
  · rfl
  · decide

/-- C9: calling gui_kill_timer with an id not present in the registry
leaves the whole state (entry count and every stored entry) unchanged. -/
theorem C9_kill_timer_absent_noop (st : GuiState) (tid : Nat)
    (h : tid ∉ st.timers.map TimerEntry.id) :
    gui_kill_timer st tid = st := by
  unfold gui_kill_timer
  split
  · rfl
  · have h2 : ∀ e ∈ st.timers, e.id ≠ tid := by
      intro e he hid
      exact h (List.mem_map.mpr ⟨e, he, hid⟩)
    rw [removeFirstTimer_of_not_mem st.timers tid h2]

/-- C9 witness: killing the absent id 99 in a state holding the single
timer 1 changes nothing. -/
theorem C9_witness :
    gui_kill_timer (gui_set_timer (gui_window initState 5) 1000 7).2 99 =
      (gui_set_timer (gui_window initState 5) 1000 7).2 :=
  C9_kill_timer_absent_noop _ 99 (by decide)

/-- C5: in a reachable state containing a timer with id t,
gui_kill_timer t removes exactly that one entry, keeping every other
entry in its original relative order and leaving the main window and the
id counter untouched. -/
theorem C5_kill_timer_removes_exactly_one (st : GuiState) (tid : Nat)
    (hr : Reachable st) (hm : tid ∈ st.timers.map TimerEntry.id) :
    ∃ l₁ e l₂, st.timers = l₁ ++ e :: l₂ ∧ e.id = tid ∧
      (gui_kill_timer st tid).timers = l₁ ++ l₂ ∧
      (gui_kill_timer st tid).timers.length + 1 = st.timers.length ∧
      (∀ x ∈ l₁ ++ l₂, x.id ≠ tid) ∧
      (gui_kill_timer st tid).mainWindow = st.mainWindow ∧
      (gui_kill_timer st tid).timerIdCounter = st.timerIdCounter := by
  obtain ⟨_, _, h3, h4⟩ := reachable_timerInv st hr
  have hne : st.timers ≠ [] := by
    intro hnil
    rw [hnil] at hm
    simp at hm
  have hw : st.mainWindow ≠ 0 := h4.resolve_left hne
  have hk : gui_kill_timer st tid =
      { st with timers := removeFirstTimer st.timers tid } := by
    unfold gui_kill_timer
    rw [if_neg hw]
  obtain ⟨l₁, e, l₂, hsplit, hid, hl1, hrem⟩ :=
    removeFirstTimer_split st.timers tid hm
  have hnodup := h3
  rw [hsplit] at hnodup
  rw [List.map_append, List.map_cons, List.nodup_append] at hnodup
  have hnotl2 : e.id ∉ l₂.map TimerEntry.id :=
    (List.nodup_cons.mp hnodup.2.1).1
  refine ⟨l₁, e, l₂, hsplit, hid, ?_, ?_, ?_, ?_, ?_⟩
  · rw [hk]
    exact hrem
  · rw [hk]
    show (removeFirstTimer st.timers tid).length + 1 = st.timers.length
    rw [hrem, hsplit]
    simp
    omega
  · intro x hx
    rcases List.mem_append.mp hx with hx2 | hx2
    · exact hl1 x hx2
    · intro hxid
      rw [← hid] at hxid
      exact hnotl2 (List.mem_map.mpr ⟨x, hx2, hxid⟩)
  · rw [hk]
  · rw [hk]

/-- C5 witness: after registering timer 1, killing id 1 yields the split
with empty prefix and suffix. -/
theorem C5_witness :
    ∃ l₁ e l₂,
      (gui_set_timer (gui_window initState 5) 1000 7).2.timers =
        l₁ ++ e :: l₂ ∧ e.id = 1 ∧
      (gui_kill_timer (gui_set_timer (gui_window initState 5) 1000 7).2
        1).timers = l₁ ++ l₂ ∧
      (gui_kill_timer (gui_set_timer (gui_window initState 5) 1000 7).2
        1).timers.length + 1 =
        (gui_set_timer (gui_window initState 5) 1000 7).2.timers.length ∧
      (∀ x ∈ l₁ ++ l₂, x.id ≠ 1) ∧
      (gui_kill_timer (gui_set_timer (gui_window initState 5) 1000 7).2
        1).mainWindow =
        (gui_set_timer (gui_window initState 5) 1000 7).2.mainWindow ∧
      (gui_kill_timer (gui_set_timer (gui_window initState 5) 1000 7).2
        1).timerIdCounter =
        (gui_set_timer (gui_window initState 5) 1000 7).2.timerIdCounter :=
  C5_kill_timer_removes_exactly_one
    (gui_set_timer (gui_window initState 5) 1000 7).2 1
    (Reachable.timer (gui_window initState 5) 1000 7
      (Reachable.window initState 5 Reachable.init)) (by decide)

/-! ### Theorems: capacity behaviour of the registries (C6) -/

/-- C6: a registration attempted when the registry is at capacity leaves
the registry unchanged for all four fixed-capacity registries
(callbacks, timers, canvases, layouts); none of these operations has an
error channel — registration into a full callback registry returns
nothing at all, and the timer, canvas and layout constructors merely
return their failure sentinel (0 resp. NULL) alongside the unchanged
registry. -/
theorem C6_capacity_silent_drop :
    (∀ (cbs : List CallbackEntry) (hwnd : Nat) (ty : CallbackType)
        (cb : Nat), MAX_CALLBACKS ≤ cbs.length →
      register_callback cbs hwnd ty cb = cbs) ∧
    (∀ (st : GuiState) (iv : Int) (cb : Nat),
        MAX_TIMERS ≤ st.timers.length →
      gui_set_timer st iv cb = (0, st)) ∧
    (∀ (cvs : List CanvasData) (hwnd : Nat) (sw sh : Int),
        MAX_CANVAS ≤ cvs.length →
      gui_canvas cvs hwnd sw sh = (none, cvs)) ∧
    (∀ (lays : List Layout) (parent : Nat) (cols margin spacing : Int),
        MAX_LAYOUTS ≤ lays.length →
      gui_vbox lays parent margin spacing = (none, lays) ∧
      gui_hbox lays parent margin spacing = (none, lays) ∧
      gui_grid lays parent cols margin spacing = (none, lays)) := by
  refine ⟨?_, ?_, ?_, ?_⟩
  · intro cbs hwnd ty cb h
    unfold register_callback
    rw [if_neg (by omega)]
  · intro st iv cb h
    unfold gui_set_timer
    rw [if_pos (Or.inr h)]
  · intro cvs hwnd sw sh h
    unfold gui_canvas
    rw [if_pos h]
  · intro lays parent cols margin spacing h
    refine ⟨?_, ?_, ?_⟩
    · unfold gui_vbox
      rw [if_pos h]
    · unfold gui_hbox
      rw [if_pos h]
    · unfold gui_grid
      rw [if_pos h]

set_option maxRecDepth 16000 in
/-- C6 witness: concrete full registries are left unchanged. -/
theorem C6_witness :
    register_callback (List.replicate 256 ⟨0, CallbackType.click, 0⟩) 1
        CallbackType.click 5 =
      List.replicate 256 ⟨0, CallbackType.click, 0⟩ ∧
    gui_set_timer ⟨5, List.replicate 32 ⟨1, 0⟩, 33⟩ 1000 7 =
      (0, ⟨5, List.replicate 32 ⟨1, 0⟩, 33⟩) ∧
    gui_canvas (List.replicate 32 ⟨1, 10, 10⟩) 2 20 20 =
      (none, List.replicate 32 ⟨1, 10, 10⟩) ∧
    gui_vbox (List.replicate 32 ⟨1, LayoutType.vbox, 0, 0, 0, []⟩) 1 0 0 =
      (none, List.replicate 32 ⟨1, LayoutType.vbox, 0, 0, 0, []⟩) :=
  ⟨C6_capacity_silent_drop.1 _ 1 CallbackType.click 5 (by decide),
   C6_capacity_silent_drop.2.1 _ 1000 7 (by decide),
   C6_capacity_silent_drop.2.2.1 _ 2 20 20 (by decide),
   (C6_capacity_silent_drop.2.2.2 _ 1 0 0 0 (by decide)).1⟩

/-! ### Theorems: layout engine (C2, C3, C8) -/

theorem vbox_rects_mem (m cw ch sp : Int) (n : Nat) :
    ∀ (y : Int), ∀ r ∈ vbox_rects m y cw ch sp n, r.w = cw ∧ r.h = ch := by
  induction n with
  | zero =>
    intro y r hr
    simp [vbox_rects] at hr
  | succ n ih =>
    intro y r hr
    simp only [vbox_rects, List.mem_cons] at hr
    rcases hr with rfl | hr2
    · exact ⟨rfl, rfl⟩
    · exact ih _ r hr2

theorem vbox_rects_sum_h (m cw ch sp : Int) (n : Nat) :
    ∀ (y : Int), ((vbox_rects m y cw ch sp n).map Rect.h).sum =
      (n : Int) * ch := by
  induction n with
  | zero =>
    intro y
    simp [vbox_rects]
  | succ n ih =>
    intro y
    simp only [vbox_rects, List.map_cons, List.sum_cons, ih]
    push_cast
    ring

theorem hbox_rects_mem (m ch cw sp : Int) (n : Nat) :
    ∀ (x : Int), ∀ r ∈ hbox_rects m x ch cw sp n, r.h = ch ∧ r.w = cw := by
  induction n with
  | zero =>
    intro x r hr
    simp [hbox_rects] at hr
  | succ n ih =>
    intro x r hr
    simp only [hbox_rects, List.mem_cons] at hr
    rcases hr with rfl | hr2
    · exact ⟨rfl, rfl⟩
    · exact ih _ r hr2

theorem hbox_rects_sum_w (m ch cw sp : Int) (n : Nat) :
    ∀ (x : Int), ((hbox_rects m x ch cw sp n).map Rect.w).sum =
      (n : Int) * cw := by
  induction n with
  | zero =>
    intro x
    simp [hbox_rects]
  | succ n ih =>
    intro x
    simp only [hbox_rects, List.map_cons, List.sum_cons, ih]
    push_cast
    ring

theorem tdiv_fit (A n : Int) (hn : 0 < n) (hA : 0 ≤ A) :
    n * Int.tdiv A n ≤ A ∧ A - n * Int.tdiv A n ≤ n - 1 := by
  rw [Int.tdiv_eq_ediv hA (le_of_lt hn)]
  have h1 := Int.ediv_add_emod A n
  have h2 := Int.emod_nonneg A (ne_of_gt hn)
  have h3 := Int.emod_lt_of_pos A hn
  constructor
  · linarith
  · linarith

theorem apply_layout_vbox (l : Layout) (width height : Int)
    (ht : l.type = LayoutType.vbox) (hn : 1 ≤ l.children.length) :
    apply_layout l width height =
      vbox_rects l.margin l.margin (width - 2 * l.margin)
        (vbox_child_h l height) l.spacing l.children.length := by
  unfold apply_layout
  rw [if_neg (by omega), ht]

theorem apply_layout_hbox (l : Layout) (width height : Int)
    (ht : l.type = LayoutType.hbox) (hn : 1 ≤ l.children.length) :
    apply_layout l width height =
      hbox_rects l.margin l.margin (height - 2 * l.margin)
        (hbox_child_w l width) l.spacing l.children.length := by
  unfold apply_layout
  rw [if_neg (by omega), ht]

theorem apply_layout_grid (l : Layout) (width height : Int)
    (ht : l.type = LayoutType.grid) (hn : 1 ≤ l.children.length) :
    apply_layout l width height =
      (List.range l.children.length).map fun i =>
        ⟨l.margin + Int.tmod (i : Int) (effective_cols l) *
            (grid_cell_w l width + l.spacing),
         l.margin + Int.tdiv (i : Int) (effective_cols l) *
            (grid_cell_h l height + l.spacing),
         grid_cell_w l width, grid_cell_h l height⟩ := by
  unfold apply_layout
  rw [if_neg (by omega), ht]
  rfl

/-- C2 (amended): for a stack layout with N >= 1 children whose total
spacing (N-1)*g does not exceed the content extent S along the stack
axis, the sum of the N equal child extents (each the truncating integer
division (S - (N-1)*g) / N) plus (N-1)*g is at most S, the shortfall is
at most N-1 pixels, and every child's cross-axis extent is the full
content cross-axis size.  Without the total-spacing bound the inequality
can fail, because C division truncates negative intermediate values
toward zero. -/
theorem C2_stack_extents (l : Layout) (width height : Int)
    (hn : 1 ≤ l.children.length) :
    (l.type = LayoutType.vbox →
      (∀ r ∈ apply_layout l width height,
        r.w = width - 2 * l.margin ∧ r.h = vbox_child_h l height) ∧
      (((l.children.length : Int) - 1) * l.spacing ≤
          height - 2 * l.margin →
        ((apply_layout l width height).map Rect.h).sum +
            ((l.children.length : Int) - 1) * l.spacing ≤
          height - 2 * l.margin ∧
        (height - 2 * l.margin) -
            (((apply_layout l width height).map Rect.h).sum +
              ((l.children.length : Int) - 1) * l.spacing) ≤
          (l.children.length : Int) - 1)) ∧
    (l.type = LayoutType.hbox →
      (∀ r ∈ apply_layout l width height,
        r.h = height - 2 * l.margin ∧ r.w = hbox_child_w l width) ∧
      (((l.children.length : Int) - 1) * l.spacing ≤
          width - 2 * l.margin →
        ((apply_layout l width height).map Rect.w).sum +
            ((l.children.length : Int) - 1) * l.spacing ≤
          width - 2 * l.margin ∧
        (width - 2 * l.margin) -
            (((apply_layout l width height).map Rect.w).sum +
              ((l.children.length : Int) - 1) * l.spacing) ≤
          (l.children.length : Int) - 1)) := by
  have hN : (0 : Int) < (l.children.length : Int) := by exact_mod_cast hn
  constructor
  · intro ht
    rw [apply_layout_vbox l width height ht hn]
    constructor
    · exact vbox_rects_mem l.margin (width - 2 * l.margin)
        (vbox_child_h l height) l.spacing l.children.length l.margin
    · intro hsp
      rw [vbox_rects_sum_h]
      have hA : 0 ≤ (height - 2 * l.margin) -
          ((l.children.length : Int) - 1) * l.spacing := by linarith
      have hfit := tdiv_fit ((height - 2 * l.margin) -
          ((l.children.length : Int) - 1) * l.spacing)
        (l.children.length : Int) hN hA
      unfold vbox_child_h
      constructor
      · linarith [hfit.1]
      · linarith [hfit.2]
  · intro ht
    rw [apply_layout_hbox l width height ht hn]
    constructor
    · exact hbox_rects_mem l.margin (height - 2 * l.margin)
        (hbox_child_w l width) l.spacing l.children.length l.margin
    · intro hsp
      rw [hbox_rects_sum_w]
      have hA : 0 ≤ (width - 2 * l.margin) -
          ((l.children.length : Int) - 1) * l.spacing := by linarith
      have hfit := tdiv_fit ((width - 2 * l.margin) -
          ((l.children.length : Int) - 1) * l.spacing)
        (l.children.length : Int) hN hA
      unfold hbox_child_w
      constructor
      · linarith [hfit.1]
      · linarith [hfit.2]

/-- C2 witness: a vertical stack of 3 children with content height 100
and spacing 5: extents sum to 90, plus total spacing 10, exactly 100. -/
theorem C2_witness :
    ((apply_layout ⟨0, LayoutType.vbox, 0, 5, 0, [1, 2, 3]⟩ 50 100).map
        Rect.h).sum + ((3 : Int) - 1) * 5 ≤ 100 ∧
    (100 : Int) -
        (((apply_layout ⟨0, LayoutType.vbox, 0, 5, 0, [1, 2, 3]⟩ 50
          100).map Rect.h).sum + ((3 : Int) - 1) * 5) ≤ (3 : Int) - 1 := by
  have h := ((C2_stack_extents ⟨0, LayoutType.vbox, 0, 5, 0, [1, 2, 3]⟩
    50 100 (by decide)).1 rfl).2 (by decide)
  constructor
  · have h1 := h.1
    norm_num at h1 ⊢
    exact h1
  · have h2 := h.2
    norm_num at h2 ⊢
    omega

/-- C2 counterexample: a vertical stack with 2 children, content height
9, spacing 10: the computed extent is (9-10)/2 = 0 (C truncation toward
zero), so the sum of extents plus total spacing is 10 > 9, violating the
claimed inequality. -/
theorem C2_counterexample :
    ¬ (((apply_layout ⟨0, LayoutType.vbox, 0, 10, 0, [1, 2]⟩ 100 9).map
          Rect.h).sum + ((2 : Int) - 1) * 10 ≤ 9) := by
  decide

theorem effective_cols_eq (l : Layout) (hc : 1 ≤ l.grid_cols) :
    effective_cols l = l.grid_cols := by
  unfold effective_cols
  rw [if_neg (by omega)]

/-- C3: for a grid layout with C >= 1 columns, the computed row count is
ceil(N / C) — characterised by C * (rows - 1) < N <= C * rows — and
child i is placed in column i % C and row i / C of the cell grid. -/
theorem C3_grid_placement (l : Layout) (width height : Int)
    (ht : l.type = LayoutType.grid) (hc : 1 ≤ l.grid_cols) :
    (l.grid_cols * (grid_rows l - 1) < (l.children.length : Int) ∧
     (l.children.length : Int) ≤ l.grid_cols * grid_rows l) ∧
    (∀ i : Nat, i < l.children.length →
      (apply_layout l width height)[i]? =
        some ⟨l.margin + Int.tmod (i : Int) l.grid_cols *
                (grid_cell_w l width + l.spacing),
              l.margin + Int.tdiv (i : Int) l.grid_cols *
                (grid_cell_h l height + l.spacing),
              grid_cell_w l width, grid_cell_h l height⟩) := by
  have hec := effective_cols_eq l hc
  constructor
  · have hN : (0 : Int) ≤ (l.children.length : Int) :=
      Int.natCast_nonneg _
    have hrows : grid_rows l =
        ((l.children.length : Int) + l.grid_cols - 1) / l.grid_cols := by
      unfold grid_rows
      rw [hec, Int.tdiv_eq_ediv (by omega) (by omega)]
    have h1 := Int.ediv_add_emod
      ((l.children.length : Int) + l.grid_cols - 1) l.grid_cols
    have h2 := Int.emod_nonneg
      ((l.children.length : Int) + l.grid_cols - 1)
      (show l.grid_cols ≠ 0 by omega)
    have h3 := Int.emod_lt_of_pos
      ((l.children.length : Int) + l.grid_cols - 1)
      (show (0 : Int) < l.grid_cols by omega)
    rw [hrows]
    constructor
    · linarith
    · linarith
  · intro i hi
    rw [apply_layout_grid l width height ht (by omega)]
    rw [List.getElem?_map, List.getElem?_range hi, hec]
    rfl

/-- C3 witness: gui_grid with cols = 3, margin = 10, spacing = 5 and 7
children in a 400 x 300 client area yields 3 rows (ceil(7/3) = 3); child
0 sits in row 0 column 0 and child 6 in row 2 column 0. -/
theorem C3_witness :
    (3 : Int) *
        (grid_rows ⟨0, LayoutType.grid, 10, 5, 3, [1, 2, 3, 4, 5, 6, 7]⟩ -
          1) < 7 ∧
    (7 : Int) ≤ 3 *
        grid_rows ⟨0, LayoutType.grid, 10, 5, 3, [1, 2, 3, 4, 5, 6, 7]⟩ ∧
    (apply_layout ⟨0, LayoutType.grid, 10, 5, 3, [1, 2, 3, 4, 5, 6, 7]⟩
        400 300)[0]? = some ⟨10, 10, 123, 90⟩ ∧
    (apply_layout ⟨0, LayoutType.grid, 10, 5, 3, [1, 2, 3, 4, 5, 6, 7]⟩
        400 300)[6]? = some ⟨10, 200, 123, 90⟩ := by
  have h := C3_grid_placement
    ⟨0, LayoutType.grid, 10, 5, 3, [1, 2, 3, 4, 5, 6, 7]⟩ 400 300 rfl
    (by decide)
  refine ⟨?_, ?_, ?_, ?_⟩
  · simpa using h.1.1
  · simpa using h.1.2
  · exact (h.2 0 (by decide)).trans (by decide)
  · exact (h.2 6 (by decide)).trans (by decide)

/-- C8: apply_layout returns immediately (producing no rectangles) when
the child count is 0, and whenever it does compute geometry the three
divisors it uses — the child count for the stack modes, the clamped
column count and the derived row count for the grid mode — are all
strictly positive. -/
theorem C8_division_safety (l : Layout) (width height : Int) :
    (l.children.length = 0 → apply_layout l width height = []) ∧
    (1 ≤ l.children.length →
      0 < (l.children.length : Int) ∧
      0 < effective_cols l ∧
      0 < grid_rows l) := by
  constructor
  · intro h
    unfold apply_layout
    rw [if_pos h]
  · intro hn
    have hN : (0 : Int) < (l.children.length : Int) := by exact_mod_cast hn
    have hec : 0 < effective_cols l := by
      unfold effective_cols
      split
      · norm_num
      · rename_i h2
        omega
    refine ⟨hN, hec, ?_⟩
    unfold grid_rows
    rw [Int.tdiv_eq_ediv (by omega) (by omega)]
    have h1 := (Int.le_ediv_iff_mul_le hec).mpr
      (show 1 * effective_cols l ≤
        (l.children.length : Int) + effective_cols l - 1 by linarith)
    linarith

/-- C8 witness: zero children yield no rectangles; with one child and
grid_cols = 0 the clamped column count and the row count are positive. -/
theorem C8_witness :
    apply_layout ⟨0, LayoutType.vbox, 0, 0, 0, []⟩ 10 10 = [] ∧
    0 < effective_cols ⟨0, LayoutType.grid, 0, 0, 0, [1]⟩ ∧
    0 < grid_rows ⟨0, LayoutType.grid, 0, 0, 0, [1]⟩ :=
  ⟨(C8_division_safety ⟨0, LayoutType.vbox, 0, 0, 0, []⟩ 10 10).1 rfl,
   ((C8_division_safety ⟨0, LayoutType.grid, 0, 0, 0, [1]⟩ 0 0).2
     (by decide)).2.1,
   ((C8_division_safety ⟨0, LayoutType.grid, 0, 0, 0, [1]⟩ 0 0).2
     (by decide)).2.2⟩

/-! ### Theorems: DPI scaling (C7) -/

theorem gui_scale_closed (v dpi : Int) (hd : 0 ≤ dpi) :
    gui_scale v dpi =
      if 0 ≤ v then (v * dpi + 48) / 96
      else -((-(v * dpi) + 48) / 96) := by
  unfold gui_scale MulDiv
  rw [if_neg (by norm_num : ¬(96 : Int) = 0)]
  rw [if_neg (by norm_num : ¬(96 : Int) < 0)]
  rw [if_neg (by norm_num : ¬(96 : Int) < 0)]
  by_cases hv : 0 ≤ v
  · rw [if_pos (Or.inl ⟨hv, hd⟩), if_pos hv]
    norm_num
    rw [Int.tdiv_eq_ediv (by positivity) (by norm_num)]
  · have hcond : ¬((0 ≤ v ∧ 0 ≤ dpi) ∨ (v < 0 ∧ dpi < 0)) := by
      push_neg
      constructor
      · intro h
        exact absurd h hv
      · intro _
        omega
    rw [if_neg hcond, if_neg hv]
    norm_num
    have hvd : v * dpi ≤ 0 :=
      mul_nonpos_of_nonpos_of_nonneg (by omega) hd
    rw [show v * dpi - 48 = -(-(v * dpi) + 48) by ring, Int.neg_tdiv,
      Int.tdiv_eq_ediv (by omega) (by norm_num)]

/-- C7 (amended): DPI scaling is monotonic for every fixed nonnegative
dpi and is the identity at 96 dpi; the scaled value is v * dpi / 96
rounded to the nearest integer with ties AWAY FROM ZERO (the MulDiv
rounding), which agrees with round-half-up exactly when v is
nonnegative. -/
theorem C7_scale_monotone_identity (v v1 v2 dpi : Int) (hd : 0 ≤ dpi) :
    (v1 ≤ v2 → gui_scale v1 dpi ≤ gui_scale v2 dpi) ∧
    gui_scale v 96 = v ∧
    (0 ≤ v → gui_scale v dpi = scale_half_up v dpi) := by
  refine ⟨?_, ?_, ?_⟩
  · intro h12
    rw [gui_scale_closed v1 dpi hd, gui_scale_closed v2 dpi hd]
    have hm : v1 * dpi ≤ v2 * dpi := mul_le_mul_of_nonneg_right h12 hd
    by_cases h1 : 0 ≤ v1
    · have h2 : 0 ≤ v2 := le_trans h1 h12
      rw [if_pos h1, if_pos h2]
      exact Int.ediv_le_ediv (by norm_num) (by omega)
    · by_cases h2 : 0 ≤ v2
      · rw [if_neg h1, if_pos h2]
        have ha : 0 ≤ (v2 * dpi + 48) / 96 :=
          Int.ediv_nonneg (by positivity) (by norm_num)
        have hb : 0 ≤ (-(v1 * dpi) + 48) / 96 := by
          have : v1 * dpi ≤ 0 :=
            mul_nonpos_of_nonpos_of_nonneg (by omega) hd
          exact Int.ediv_nonneg (by omega) (by norm_num)
        omega
      · rw [if_neg h1, if_neg h2]
        have := Int.ediv_le_ediv (show (0 : Int) < 96 by norm_num)
          (show -(v2 * dpi) + 48 ≤ -(v1 * dpi) + 48 by omega)
        omega
  · rw [gui_scale_closed v 96 (by norm_num)]
    by_cases hv : 0 ≤ v
    · rw [if_pos hv]
      rw [show v * 96 + 48 = 48 + v * 96 by ring,
        Int.add_mul_ediv_right 48 v (by norm_num : (96 : Int) ≠ 0)]
      norm_num
    · rw [if_neg hv]
      rw [show -(v * 96) + 48 = 48 + -v * 96 by ring,
        Int.add_mul_ediv_right 48 (-v) (by norm_num : (96 : Int) ≠ 0)]
      norm_num
  · intro hv
    rw [gui_scale_closed v dpi hd, if_pos hv]
    rfl

/-- C7 witness: scaling is the identity at 96 dpi on 7, monotone at
144 dpi on 2 <= 5, and matches round-half-up on the nonnegative value 3
at 144 dpi. -/
theorem C7_witness :
    gui_scale 7 96 = 7 ∧
    gui_scale 2 144 ≤ gui_scale 5 144 ∧
    gui_scale 3 144 = scale_half_up 3 144 := by
  have h96 := C7_scale_monotone_identity 7 0 0 96 (by norm_num)
  have h144 := C7_scale_monotone_identity 3 2 5 144 (by norm_num)
  exact ⟨h96.2.1, h144.1 (by norm_num), h144.2.2 (by norm_num)⟩

/-- C7 counterexample: at 144 dpi the value -3 maps to -4.5; rounding to
nearest half-UP gives -4, but gui_scale (via MulDiv) returns -5 — it
rounds ties away from zero, so the claimed half-up rounding is wrong for
negative values. -/
theorem C7_counterexample :
    gui_scale (-3) 144 = -5 ∧ scale_half_up (-3) 144 = -4 ∧
    ((-5 : Int) ≠ -4) := by
  refine ⟨?_, ?_, by decide⟩
  · decide
  · decide
